import Mathlib

/-!
Shallow embedding of the stage-orchestration core of the yt-neural-miner
repository (src/lib/python-core/miner.py and audio_engine.py), together with
proofs settling the frozen specification claims about it.

Modelling conventions, stated once:
* Stage computations run by the worker process are modelled by their outcome,
  an `Except String α` value (`error e` is a raised exception with message e).
* The artifact store (the run directory on disk) is a record of optional file
  contents; a stage writes the value the worker returned.  JSON serialization
  of metadata and emotion results is content-irrelevant to every claim and is
  therefore identified with the returned value itself.
* The cancellation token `SKIP_CURRENT_STAGE` is a boolean threaded through
  the pipeline.  The per-stage input flag `skip` means "the listener thread
  set the token at some poll instant while this stage had a live worker"; the
  process terminate/join mechanics collapse to the skip branch of
  `run_skippable_stage`.
* Output lines printed with `flush=True` are collected into event lists.
-/

namespace Miner

/-- The four enrichment stages, in the fixed order of miner.py main. -/
inductive Stage
  | metadata
  | audio
  | video
  | emotions
deriving DecidableEq, Repr

/-- The per-run artifact directory: optional contents of the four stage
artifact files (metadata.json, transcript.txt, video_narrative.txt,
emotions.json), mirroring the `paths` dictionary of miner.py. -/
structure Fs where
  metadata : Option String
  transcript : Option String
  narrative : Option String
  emotions : Option String
deriving DecidableEq, Repr

/-- Artifact file of a stage, as read by the coordinator cache checks
(miner.py lines 287, 302, 314, 324). -/
def artifactOf : Stage → Fs → Option String
  | Stage.metadata, fs => fs.metadata
  | Stage.audio, fs => fs.transcript
  | Stage.video, fs => fs.narrative
  | Stage.emotions, fs => fs.emotions

/-- Coordinator-side artifact write (miner.py lines 297, 309, 320, 333). -/
def writeArtifact : Stage → String → Fs → Fs
  | Stage.metadata, c, fs => { fs with metadata := some c }
  | Stage.audio, c, fs => { fs with transcript := some c }
  | Stage.video, c, fs => { fs with narrative := some c }
  | Stage.emotions, c, fs => { fs with emotions := some c }

/-- Progress-event label of each stage. -/
def stageLabel : Stage → String
  | Stage.metadata => "Metadata"
  | Stage.audio => "Audio"
  | Stage.video => "Video"
  | Stage.emotions => "Emotions"

/-- The cached-stage progress event, e.g. PRG:Metadata:Cached:100. -/
def cachedEv (st : Stage) : String := "PRG:" ++ stageLabel st ++ ":Cached:100"

/-- The stage-start progress event, e.g. PRG:Metadata:Initializing...:0. -/
def initEv (st : Stage) : String := "PRG:" ++ stageLabel st ++ ":Initializing...:0"

/-- The stage-completion progress event printed after a successful artifact
write; the video stage is the one stage that prints no completion event
(miner.py line 320). -/
def doneEvs (st : Stage) : List String :=
  if st = Stage.video then [] else ["PRG:" ++ stageLabel st ++ ":100:100"]

/-- One stage execution request: whether the listener set the cancellation
token while the worker was alive, and the worker computation outcome. -/
structure StageInput where
  skip : Bool
  comp : Except String String
deriving Repr

/-- worker_wrapper (miner.py lines 41-48): run the computation inside the
child process; an exception is caught, reported as an error event, and
converted to a None result on the queue. -/
def worker_wrapper : Except String String → List String × Option String
  | Except.ok r => ([], some r)
  | Except.error e => (["❌ Engine Error: " ++ e], none)

/-- run_skippable_stage (miner.py lines 50-67).  The incoming token value
`tok` is discarded by the clear() on line 51; if the token is set during the
run the child is terminated and joined, one SKIP_ACK is printed, and no
result is returned; otherwise the queue yields the worker_wrapper output.
Result: (token value after the stage, printed events, optional result). -/
def run_skippable_stage (tok : Bool) (inp : StageInput) : Bool × List String × Option String :=
  let tokCleared := false
  let tokRun := tokCleared || inp.skip
  if tokRun then (tokRun, ["SKIP_ACK"], none)
  else (tokRun, worker_wrapper inp.comp)

/-- Result of running one stage (or the whole pipeline): token state,
emitted event lines, artifact directory state. -/
structure RunSt where
  tok : Bool
  evs : List String
  fs : Fs
deriving Repr

/-- One coordinator stage block (miner.py lines 286-334, uniform shape): if
the artifact file exists, print the Cached event and skip; otherwise print
Initializing, run the skippable stage, and on a truthy result write the
artifact and print the completion event. -/
def runStage (st : Stage) (inp : StageInput) (tok : Bool) (fs : Fs) : RunSt :=
  if (artifactOf st fs).isSome then
    { tok := tok, evs := [cachedEv st], fs := fs }
  else
    let r := run_skippable_stage tok inp
    match r.2.2 with
    | some res =>
      if res ≠ "" then
        { tok := r.1, evs := initEv st :: r.2.1 ++ doneEvs st, fs := writeArtifact st res fs }
      else
        { tok := r.1, evs := initEv st :: r.2.1, fs := fs }
    | none => { tok := r.1, evs := initEv st :: r.2.1, fs := fs }

/-- The fixed stage order of miner.py main. -/
def stageOrder : List Stage := [Stage.metadata, Stage.audio, Stage.video, Stage.emotions]

/-- The coordinator loop over a list of stages: requested stages run in
order, threading the token and the artifact directory. -/
def runStagesAux (req : Stage → Bool) (inps : Stage → StageInput) :
    List Stage → Bool → Fs → RunSt
  | [], tok, fs => { tok := tok, evs := [], fs := fs }
  | st :: rest, tok, fs =>
    if req st then
      let r := runStage st (inps st) tok fs
      let r2 := runStagesAux req inps rest r.tok r.fs
      { tok := r2.tok, evs := r.evs ++ r2.evs, fs := r2.fs }
    else runStagesAux req inps rest tok fs

/-- The whole stage sequence of one run (the RUN MODE block of main),
starting with an unset cancellation token. -/
def runPipeline (req : Stage → Bool) (inps : Stage → StageInput) (fs : Fs) : RunSt :=
  runStagesAux req inps stageOrder false fs

/-- Requested-stage predicate with one stage removed. -/
def reqWithout (req : Stage → Bool) (x : Stage) : Stage → Bool :=
  fun s => if s = x then false else req s

section StageLemmas

theorem runStage_cached (st : Stage) (inp : StageInput) (tok : Bool) (fs : Fs)
    (h : (artifactOf st fs).isSome) :
    runStage st inp tok fs = { tok := tok, evs := [cachedEv st], fs := fs } := by
  simp [runStage, h]

theorem runStage_skip (st : Stage) (inp : StageInput) (tok : Bool) (fs : Fs)
    (habs : artifactOf st fs = none) (hskip : inp.skip = true) :
    runStage st inp tok fs = { tok := true, evs := [initEv st, "SKIP_ACK"], fs := fs } := by
  simp [runStage, habs, run_skippable_stage, hskip]

theorem runStage_err (st : Stage) (inp : StageInput) (tok : Bool) (fs : Fs) (e : String)
    (habs : artifactOf st fs = none) (hskip : inp.skip = false)
    (hcomp : inp.comp = Except.error e) :
    runStage st inp tok fs =
      { tok := false, evs := [initEv st, "❌ Engine Error: " ++ e], fs := fs } := by
  simp [runStage, habs, run_skippable_stage, hskip, worker_wrapper, hcomp]

theorem runStage_ok (st : Stage) (inp : StageInput) (tok : Bool) (fs : Fs) (r : String)
    (habs : artifactOf st fs = none) (hskip : inp.skip = false)
    (hcomp : inp.comp = Except.ok r) (hr : r ≠ "") :
    runStage st inp tok fs =
      { tok := false, evs := initEv st :: doneEvs st, fs := writeArtifact st r fs } := by
  simp [runStage, habs, run_skippable_stage, hskip, worker_wrapper, hcomp, hr]

/-- run_skippable_stage ignores the incoming token value because of the
clear() on miner.py line 51. -/
theorem run_skippable_stage_tok (t₁ t₂ : Bool) (inp : StageInput) :
    run_skippable_stage t₁ inp = run_skippable_stage t₂ inp := rfl

/-- The events and artifact effects of a stage do not depend on the incoming
token value: run_skippable_stage clears the token first. -/
theorem runStage_tok_irrel (st : Stage) (inp : StageInput) (t₁ t₂ : Bool) (fs : Fs) :
    (runStage st inp t₁ fs).evs = (runStage st inp t₂ fs).evs ∧
      (runStage st inp t₁ fs).fs = (runStage st inp t₂ fs).fs := by
  by_cases h : (artifactOf st fs).isSome
  · simp [runStage, h]
  · simp [runStage, h, run_skippable_stage_tok t₁ t₂]

/-- writeArtifact touches only the written stage's file. -/
theorem writeArtifact_preserves (st x : Stage) (c : String) (fs : Fs) (hne : st ≠ x) :
    artifactOf x (writeArtifact st c fs) = artifactOf x fs := by
  cases st <;> cases x <;> simp_all [writeArtifact, artifactOf]

/-- A stage never writes another stage's artifact file. -/
theorem runStage_preserves (st x : Stage) (inp : StageInput) (tok : Bool) (fs : Fs)
    (hne : st ≠ x) : artifactOf x (runStage st inp tok fs).fs = artifactOf x fs := by
  unfold runStage
  by_cases h : (artifactOf st fs).isSome
  · simp [h]
  · rcases hq : (run_skippable_stage tok inp).2.2 with _ | res
    · simp [h, hq]
    · by_cases hr : res = ""
      · simp [h, hq, hr]
      · simp [h, hq, hr, writeArtifact_preserves st x res fs hne]

end StageLemmas

section PipelineLemmas

variable (req req' : Stage → Bool) (inps : Stage → StageInput)

theorem runStagesAux_append (l₁ l₂ : List Stage) (tok : Bool) (fs : Fs) :
    runStagesAux req inps (l₁ ++ l₂) tok fs =
      { tok := (runStagesAux req inps l₂ (runStagesAux req inps l₁ tok fs).tok
          (runStagesAux req inps l₁ tok fs).fs).tok
        evs := (runStagesAux req inps l₁ tok fs).evs ++
          (runStagesAux req inps l₂ (runStagesAux req inps l₁ tok fs).tok
            (runStagesAux req inps l₁ tok fs).fs).evs
        fs := (runStagesAux req inps l₂ (runStagesAux req inps l₁ tok fs).tok
          (runStagesAux req inps l₁ tok fs).fs).fs } := by
  induction l₁ generalizing tok fs with
  | nil => simp [runStagesAux]
  | cons st rest ih =>
    by_cases h : req st = true
    · simp [runStagesAux, h, ih]
    · simp [runStagesAux, h, ih]

/-- Two runs whose requested-stage predicates agree on a stage list behave
identically on it. -/
theorem runStagesAux_congr (l : List Stage) (tok : Bool) (fs : Fs)
    (h : ∀ st ∈ l, req st = req' st) :
    runStagesAux req inps l tok fs = runStagesAux req' inps l tok fs := by
  induction l generalizing tok fs with
  | nil => rfl
  | cons st rest ih =>
    have hst : req st = req' st := h st (by simp)
    have hrest : ∀ st ∈ rest, req st = req' st := fun s hs => h s (by simp [hs])
    have ih' : ∀ t f, runStagesAux req inps rest t f = runStagesAux req' inps rest t f :=
      fun t f => ih t f hrest
    by_cases hr : req st = true
    · simp [runStagesAux, hr, ← hst, ih']
    · simp [runStagesAux, hr, ← hst, ih']

/-- Events and artifacts of a stage-list run do not depend on the incoming
token: each executed stage clears the token before consulting it. -/
theorem runStagesAux_tok_irrel (l : List Stage) (t₁ t₂ : Bool) (fs : Fs) :
    (runStagesAux req inps l t₁ fs).evs = (runStagesAux req inps l t₂ fs).evs ∧
      (runStagesAux req inps l t₁ fs).fs = (runStagesAux req inps l t₂ fs).fs := by
  induction l generalizing t₁ t₂ fs with
  | nil => simp [runStagesAux]
  | cons st rest ih =>
    by_cases h : req st = true
    · have hev := (runStage_tok_irrel st (inps st) t₁ t₂ fs).1
      have hfs := (runStage_tok_irrel st (inps st) t₁ t₂ fs).2
      have ihx := ih (runStage st (inps st) t₁ fs).tok (runStage st (inps st) t₂ fs).tok
        (runStage st (inps st) t₂ fs).fs
      simp only [runStagesAux, h, if_true]
      refine ⟨?_, ?_⟩
      · rw [hev, hfs, ihx.1]
      · rw [hfs, ihx.2]
    · simpa [runStagesAux, h] using ih t₁ t₂ fs

/-- A run over stages that do not include x never changes the artifact of x. -/
theorem runStagesAux_preserves (l : List Stage) (x : Stage) (tok : Bool) (fs : Fs)
    (h : ∀ st ∈ l, st ≠ x) :
    artifactOf x (runStagesAux req inps l tok fs).fs = artifactOf x fs := by
  induction l generalizing tok fs with
  | nil => rfl
  | cons st rest ih =>
    have hst : st ≠ x := h st (by simp)
    have hrest : ∀ s ∈ rest, s ≠ x := fun s hs => h s (by simp [hs])
    by_cases hr : req st = true
    · simp [runStagesAux, hr, ih _ _ hrest, runStage_preserves st x (inps st) tok fs hst]
    · simp [runStagesAux, hr, ih _ _ hrest]

/-- A worker success with a falsy (empty) result writes nothing and prints
no completion event. -/
theorem runStage_ok_empty (st : Stage) (inp : StageInput) (tok : Bool) (fs : Fs) (r : String)
    (habs : artifactOf st fs = none) (hskip : inp.skip = false)
    (hcomp : inp.comp = Except.ok r) (hr : r = "") :
    runStage st inp tok fs = { tok := false, evs := [initEv st], fs := fs } := by
  simp [runStage, habs, run_skippable_stage, hskip, worker_wrapper, hcomp, hr]

theorem cachedEv_ne_ack (st : Stage) : cachedEv st ≠ "SKIP_ACK" := by
  cases st <;> decide

theorem initEv_ne_ack (st : Stage) : initEv st ≠ "SKIP_ACK" := by
  cases st <;> decide

theorem doneEvs_ne_ack (st : Stage) : "SKIP_ACK" ∉ doneEvs st := by
  cases st <;> decide

theorem errEv_ne_ack (e : String) : "❌ Engine Error: " ++ e ≠ "SKIP_ACK" := by
  intro hcontra
  have hlen := congrArg String.length hcontra
  rw [String.length_append] at hlen
  have h1 : ("❌ Engine Error: " : String).length = 16 := by decide
  have h2 : ("SKIP_ACK" : String).length = 8 := by decide
  omega

/-- A stage whose input has the skip flag unset never emits SKIP_ACK. -/
theorem runStage_no_ack (st : Stage) (inp : StageInput) (tok : Bool) (fs : Fs)
    (h : inp.skip = false) : (runStage st inp tok fs).evs.count "SKIP_ACK" = 0 := by
  rw [List.count_eq_zero]
  intro hmem
  by_cases hc : (artifactOf st fs).isSome
  · rw [runStage_cached st inp tok fs hc] at hmem
    exact cachedEv_ne_ack st (List.mem_singleton.mp hmem).symm
  · have habs : artifactOf st fs = none := Option.not_isSome_iff_eq_none.mp hc
    rcases hcomp : inp.comp with e | r
    · rw [runStage_err st inp tok fs e habs h hcomp] at hmem
      rcases List.mem_cons.mp hmem with h1 | h2
      · exact initEv_ne_ack st h1.symm
      · exact errEv_ne_ack e (List.mem_singleton.mp h2).symm
    · by_cases hr : r = ""
      · rw [runStage_ok_empty st inp tok fs r habs h hcomp hr] at hmem
        exact initEv_ne_ack st (List.mem_singleton.mp hmem).symm
      · rw [runStage_ok st inp tok fs r habs h hcomp hr] at hmem
        rcases List.mem_cons.mp hmem with h1 | h2
        · exact initEv_ne_ack st h1.symm
        · exact doneEvs_ne_ack st h2

/-- A stage list whose requested members all have the skip flag unset emits
no SKIP_ACK at all. -/
theorem runStagesAux_no_ack (l : List Stage) (tok : Bool) (fs : Fs)
    (h : ∀ st ∈ l, (inps st).skip = false) :
    (runStagesAux req inps l tok fs).evs.count "SKIP_ACK" = 0 := by
  induction l generalizing tok fs with
  | nil => simp [runStagesAux]
  | cons st rest ih =>
    have hst : (inps st).skip = false := h st (by simp)
    have hrest : ∀ s ∈ rest, (inps s).skip = false := fun s hs => h s (by simp [hs])
    by_cases hr : req st = true
    · simp [runStagesAux, hr, List.count_append, ih _ _ hrest,
        runStage_no_ack st (inps st) tok fs hst]
    · simp [runStagesAux, hr, ih _ _ hrest]

/-- If requested stage x leaves the artifact directory unchanged and emits a
fixed event segment, then the whole run equals the run without x, except for
that inserted segment: later stages proceed exactly as they would have. -/
theorem pipeline_nowrite_decomp (req : Stage → Bool) (inps : Stage → StageInput)
    (fs : Fs) (x : Stage) (l₁ l₂ : List Stage) (evsx : List String)
    (hsplit : stageOrder = l₁ ++ x :: l₂)
    (h₁ : ∀ st ∈ l₁, st ≠ x) (h₂ : ∀ st ∈ l₂, st ≠ x)
    (hreq : req x = true)
    (hx : ∀ t, (runStage x (inps x) t (runStagesAux req inps l₁ false fs).fs).evs = evsx ∧
      (runStage x (inps x) t (runStagesAux req inps l₁ false fs).fs).fs =
        (runStagesAux req inps l₁ false fs).fs) :
    (runPipeline req inps fs).evs =
      (runStagesAux req inps l₁ false fs).evs ++ evsx ++
        (runStagesAux req inps l₂ false (runStagesAux req inps l₁ false fs).fs).evs ∧
    (runPipeline (reqWithout req x) inps fs).evs =
      (runStagesAux req inps l₁ false fs).evs ++
        (runStagesAux req inps l₂ false (runStagesAux req inps l₁ false fs).fs).evs ∧
    (runPipeline req inps fs).fs =
      (runStagesAux req inps l₂ false (runStagesAux req inps l₁ false fs).fs).fs ∧
    (runPipeline (reqWithout req x) inps fs).fs =
      (runStagesAux req inps l₂ false (runStagesAux req inps l₁ false fs).fs).fs := by
  have hcongr₁ : ∀ st ∈ l₁, reqWithout req x st = req st := by
    intro st hst
    simp [reqWithout, h₁ st hst]
  have hcongr₂ : ∀ st ∈ l₂, reqWithout req x st = req st := by
    intro st hst
    simp [reqWithout, h₂ st hst]
  have hrx : reqWithout req x x = false := by simp [reqWithout]
  have hrun : runPipeline req inps fs = runStagesAux req inps (l₁ ++ x :: l₂) false fs := by
    rw [runPipeline, hsplit]
  have hrun' : runPipeline (reqWithout req x) inps fs =
      runStagesAux (reqWithout req x) inps (l₁ ++ x :: l₂) false fs := by
    rw [runPipeline, hsplit]
  have hstep : ∀ t,
      (runStagesAux req inps (x :: l₂) t (runStagesAux req inps l₁ false fs).fs).evs =
        evsx ++ (runStagesAux req inps l₂ false (runStagesAux req inps l₁ false fs).fs).evs ∧
      (runStagesAux req inps (x :: l₂) t (runStagesAux req inps l₁ false fs).fs).fs =
        (runStagesAux req inps l₂ false (runStagesAux req inps l₁ false fs).fs).fs := by
    intro t
    have hirr := runStagesAux_tok_irrel req inps l₂
      (runStage x (inps x) t (runStagesAux req inps l₁ false fs).fs).tok false
      (runStagesAux req inps l₁ false fs).fs
    simp only [runStagesAux, hreq, if_true]
    rw [(hx t).1, (hx t).2]
    exact ⟨by rw [hirr.1], by rw [hirr.2]⟩
  have hstep' : ∀ t,
      (runStagesAux (reqWithout req x) inps (x :: l₂) t
          (runStagesAux req inps l₁ false fs).fs).evs =
        (runStagesAux req inps l₂ false (runStagesAux req inps l₁ false fs).fs).evs ∧
      (runStagesAux (reqWithout req x) inps (x :: l₂) t
          (runStagesAux req inps l₁ false fs).fs).fs =
        (runStagesAux req inps l₂ false (runStagesAux req inps l₁ false fs).fs).fs := by
    intro t
    have hc := runStagesAux_congr (reqWithout req x) req inps l₂ t
      (runStagesAux req inps l₁ false fs).fs hcongr₂
    have hirr := runStagesAux_tok_irrel req inps l₂ t false
      (runStagesAux req inps l₁ false fs).fs
    simp only [runStagesAux, hrx, Bool.false_eq_true, if_false]
    rw [hc]
    exact ⟨hirr.1, hirr.2⟩
  have hA' : runStagesAux (reqWithout req x) inps l₁ false fs =
      runStagesAux req inps l₁ false fs :=
    runStagesAux_congr (reqWithout req x) req inps l₁ false fs hcongr₁
  refine ⟨?_, ?_, ?_, ?_⟩
  · rw [hrun, runStagesAux_append]
    simp only []
    rw [(hstep _).1, List.append_assoc]
  · rw [hrun', runStagesAux_append, hA']
    simp only []
    rw [(hstep' _).1]
  · rw [hrun, runStagesAux_append]
    simp only []
    rw [(hstep _).2]
  · rw [hrun', runStagesAux_append, hA']
    simp only []
    rw [(hstep' _).2]

/-- Full cancellation analysis of one run for a stage split of the fixed
order; helper discharged per concrete stage below. -/
theorem skip_run_facts (req : Stage → Bool) (inps : Stage → StageInput) (fs : Fs)
    (x : Stage) (l₁ l₂ : List Stage)
    (hsplit : stageOrder = l₁ ++ x :: l₂)
    (h₁ : ∀ st ∈ l₁, st ≠ x) (h₂ : ∀ st ∈ l₂, st ≠ x)
    (hreq : req x = true) (hskip : (inps x).skip = true)
    (habs : artifactOf x fs = none)
    (hothers : ∀ y, y ≠ x → (inps y).skip = false) :
    (runPipeline req inps fs).evs.count "SKIP_ACK" = 1 ∧
    artifactOf x (runPipeline req inps fs).fs = none ∧
    (runPipeline req inps fs).fs = (runPipeline (reqWithout req x) inps fs).fs ∧
    ∃ pre post,
      (runPipeline req inps fs).evs = pre ++ [initEv x, "SKIP_ACK"] ++ post ∧
      (runPipeline (reqWithout req x) inps fs).evs = pre ++ post := by
  have hpres₁ : artifactOf x (runStagesAux req inps l₁ false fs).fs = none := by
    rw [runStagesAux_preserves req inps l₁ x false fs h₁, habs]
  have hx : ∀ t, (runStage x (inps x) t (runStagesAux req inps l₁ false fs).fs).evs =
      [initEv x, "SKIP_ACK"] ∧
      (runStage x (inps x) t (runStagesAux req inps l₁ false fs).fs).fs =
        (runStagesAux req inps l₁ false fs).fs := by
    intro t
    rw [runStage_skip x (inps x) t _ hpres₁ hskip]
    exact ⟨rfl, rfl⟩
  obtain ⟨he, he', hf, hf'⟩ := pipeline_nowrite_decomp req inps fs x l₁ l₂
    [initEv x, "SKIP_ACK"] hsplit h₁ h₂ hreq hx
  have c₁ : (runStagesAux req inps l₁ false fs).evs.count "SKIP_ACK" = 0 :=
    runStagesAux_no_ack req inps l₁ false fs (fun st hst => hothers st (h₁ st hst))
  have c₂ : (runStagesAux req inps l₂ false
      (runStagesAux req inps l₁ false fs).fs).evs.count "SKIP_ACK" = 0 :=
    runStagesAux_no_ack req inps l₂ false _ (fun st hst => hothers st (h₂ st hst))
  have hbeq : (initEv x == "SKIP_ACK") = false :=
    beq_eq_false_iff_ne.mpr (initEv_ne_ack x)
  refine ⟨?_, ?_, ?_, ⟨_, _, he, he'⟩⟩
  · rw [he, List.count_append, List.count_append, c₁, c₂]
    simp [List.count_cons, hbeq]
  · rw [hf, runStagesAux_preserves req inps l₂ x false _ h₂, hpres₁]
  · rw [hf, hf']

/-- C1: setting the cancellation token while stage x has a live worker makes
the executor return no result: exactly one SKIP_ACK is emitted over the whole
run, no artifact for x is written, and — the token being cleared at the start
of every stage — the rest of the run is event- and artifact-identical to a
run in which x was never requested, so every later requested stage runs
normally. -/
theorem c1_cancellation_stage_scoped (req : Stage → Bool) (inps : Stage → StageInput)
    (fs : Fs) (x : Stage)
    (hreq : req x = true) (hskip : (inps x).skip = true)
    (habs : artifactOf x fs = none)
    (hothers : ∀ y, y ≠ x → (inps y).skip = false) :
    (runPipeline req inps fs).evs.count "SKIP_ACK" = 1 ∧
    artifactOf x (runPipeline req inps fs).fs = none ∧
    (runPipeline req inps fs).fs = (runPipeline (reqWithout req x) inps fs).fs ∧
    ∃ pre post,
      (runPipeline req inps fs).evs = pre ++ [initEv x, "SKIP_ACK"] ++ post ∧
      (runPipeline (reqWithout req x) inps fs).evs = pre ++ post := by
  cases x with
  | metadata =>
    exact skip_run_facts req inps fs _ [] [Stage.audio, Stage.video, Stage.emotions]
      rfl (by decide) (by decide) hreq hskip habs hothers
  | audio =>
    exact skip_run_facts req inps fs _ [Stage.metadata] [Stage.video, Stage.emotions]
      rfl (by decide) (by decide) hreq hskip habs hothers
  | video =>
    exact skip_run_facts req inps fs _ [Stage.metadata, Stage.audio] [Stage.emotions]
      rfl (by decide) (by decide) hreq hskip habs hothers
  | emotions =>
    exact skip_run_facts req inps fs _ [Stage.metadata, Stage.audio, Stage.video] []
      rfl (by decide) (by decide) hreq hskip habs hothers

/-- Error analysis of one run for a stage split of the fixed order. -/
theorem err_run_facts (req : Stage → Bool) (inps : Stage → StageInput) (fs : Fs)
    (x : Stage) (e : String) (l₁ l₂ : List Stage)
    (hsplit : stageOrder = l₁ ++ x :: l₂)
    (h₁ : ∀ st ∈ l₁, st ≠ x) (h₂ : ∀ st ∈ l₂, st ≠ x)
    (hreq : req x = true) (hskip : (inps x).skip = false)
    (hcomp : (inps x).comp = Except.error e)
    (habs : artifactOf x fs = none) :
    artifactOf x (runPipeline req inps fs).fs = none ∧
    (runPipeline req inps fs).fs = (runPipeline (reqWithout req x) inps fs).fs ∧
    ∃ pre post,
      (runPipeline req inps fs).evs = pre ++ [initEv x, "❌ Engine Error: " ++ e] ++ post ∧
      (runPipeline (reqWithout req x) inps fs).evs = pre ++ post := by
  have hpres₁ : artifactOf x (runStagesAux req inps l₁ false fs).fs = none := by
    rw [runStagesAux_preserves req inps l₁ x false fs h₁, habs]
  have hx : ∀ t, (runStage x (inps x) t (runStagesAux req inps l₁ false fs).fs).evs =
      [initEv x, "❌ Engine Error: " ++ e] ∧
      (runStage x (inps x) t (runStagesAux req inps l₁ false fs).fs).fs =
        (runStagesAux req inps l₁ false fs).fs := by
    intro t
    rw [runStage_err x (inps x) t _ e hpres₁ hskip hcomp]
    exact ⟨rfl, rfl⟩
  obtain ⟨he, he', hf, hf'⟩ := pipeline_nowrite_decomp req inps fs x l₁ l₂
    [initEv x, "❌ Engine Error: " ++ e] hsplit h₁ h₂ hreq hx
  refine ⟨?_, ?_, ⟨_, _, he, he'⟩⟩
  · rw [hf, runStagesAux_preserves req inps l₂ x false _ h₂, hpres₁]
  · rw [hf, hf']

/-- C2: an exception in a stage computation is caught by worker_wrapper
inside the worker process, reported as an error event, and converted to a
None result; the run is not terminated: apart from the inserted error
segment, the rest of the run is event- and artifact-identical to a run in
which the failing stage was never requested, so every later requested stage
in the fixed order still executes. -/
theorem c2_worker_isolation (req : Stage → Bool) (inps : Stage → StageInput)
    (fs : Fs) (x : Stage) (e : String)
    (hreq : req x = true) (hskip : (inps x).skip = false)
    (hcomp : (inps x).comp = Except.error e)
    (habs : artifactOf x fs = none) :
    worker_wrapper (Except.error e) = (["❌ Engine Error: " ++ e], none) ∧
    artifactOf x (runPipeline req inps fs).fs = none ∧
    (runPipeline req inps fs).fs = (runPipeline (reqWithout req x) inps fs).fs ∧
    ∃ pre post,
      (runPipeline req inps fs).evs = pre ++ [initEv x, "❌ Engine Error: " ++ e] ++ post ∧
      (runPipeline (reqWithout req x) inps fs).evs = pre ++ post := by
  refine ⟨rfl, ?_⟩
  cases x with
  | metadata =>
    exact err_run_facts req inps fs _ e [] [Stage.audio, Stage.video, Stage.emotions]
      rfl (by decide) (by decide) hreq hskip hcomp habs
  | audio =>
    exact err_run_facts req inps fs _ e [Stage.metadata] [Stage.video, Stage.emotions]
      rfl (by decide) (by decide) hreq hskip hcomp habs
  | video =>
    exact err_run_facts req inps fs _ e [Stage.metadata, Stage.audio] [Stage.emotions]
      rfl (by decide) (by decide) hreq hskip hcomp habs
  | emotions =>
    exact err_run_facts req inps fs _ e [Stage.metadata, Stage.audio, Stage.video] []
      rfl (by decide) (by decide) hreq hskip hcomp habs

/-- A stage list all of whose requested members have present artifacts
produces only Cached events and leaves the store untouched. -/
theorem runStagesAux_all_cached (req : Stage → Bool) (inps : Stage → StageInput)
    (l : List Stage) (tok : Bool) (fs : Fs)
    (h : ∀ st ∈ l, req st = true → (artifactOf st fs).isSome) :
    runStagesAux req inps l tok fs =
      { tok := tok, evs := (l.filter (fun st => req st)).map cachedEv, fs := fs } := by
  induction l with
  | nil => simp [runStagesAux]
  | cons st rest ih =>
    have hrest : ∀ s ∈ rest, req s = true → (artifactOf s fs).isSome :=
      fun s hs => h s (by simp [hs])
    by_cases hr : req st = true
    · have hc : (artifactOf st fs).isSome := h st (by simp) hr
      simp [runStagesAux, hr, runStage_cached st (inps st) tok fs hc, ih hrest,
        List.filter_cons, cachedEv]
    · simp [runStagesAux, hr, ih hrest, List.filter_cons]

/-- The requested-stage set of the resumability scenario: metadata, audio. -/
def reqMetaAudio : Stage → Bool
  | Stage.metadata => true
  | Stage.audio => true
  | _ => false

/-- C4: re-running over an intact artifact directory performs zero stage
recomputation — each present requested stage emits exactly its Cached event
and the store is byte-identical — and in the resumability scenario
(transcript present, metadata absent, requesting metadata and audio) only
the metadata stage runs while audio is skipped as cached. -/
theorem c4_idempotence_resumability :
    (∀ (st : Stage) (inp : StageInput) (tok : Bool) (fs : Fs),
      (artifactOf st fs).isSome →
        runStage st inp tok fs = { tok := tok, evs := [cachedEv st], fs := fs }) ∧
    (∀ (req : Stage → Bool) (inps : Stage → StageInput) (fs : Fs),
      (∀ st, req st = true → (artifactOf st fs).isSome) →
        (runPipeline req inps fs).fs = fs ∧
        (runPipeline req inps fs).evs =
          (stageOrder.filter (fun st => req st)).map cachedEv) ∧
    (∀ (inps : Stage → StageInput) (fs : Fs) (t m : String),
      fs.metadata = none → fs.transcript = some t →
      (inps Stage.metadata).skip = false →
      (inps Stage.metadata).comp = Except.ok m → m ≠ "" →
        (runPipeline reqMetaAudio inps fs).evs =
          [initEv Stage.metadata, "PRG:Metadata:100:100", cachedEv Stage.audio] ∧
        (runPipeline reqMetaAudio inps fs).fs = { fs with metadata := some m }) := by
  refine ⟨fun st inp tok fs h => runStage_cached st inp tok fs h, ?_, ?_⟩
  · intro req inps fs h
    rw [runPipeline, runStagesAux_all_cached req inps stageOrder false fs
      (fun st _ hr => h st hr)]
    exact ⟨rfl, rfl⟩
  · intro inps fs t m hmeta htr hskip hcomp hm
    have habs : artifactOf Stage.metadata fs = none := hmeta
    have hmetaRun := runStage_ok Stage.metadata (inps Stage.metadata) false fs m
      habs hskip hcomp hm
    have hfs' : (writeArtifact Stage.metadata m fs).transcript = some t := htr
    have haudio : (artifactOf Stage.audio (writeArtifact Stage.metadata m fs)).isSome := by
      rw [show artifactOf Stage.audio (writeArtifact Stage.metadata m fs) =
        (writeArtifact Stage.metadata m fs).transcript from rfl, hfs']
      rfl
    have haudioRun := runStage_cached Stage.audio (inps Stage.audio) false
      (writeArtifact Stage.metadata m fs) haudio
    constructor
    · simp [runPipeline, stageOrder, runStagesAux, reqMetaAudio, hmetaRun, haudioRun,
        doneEvs, stageLabel]
    · simp only [runPipeline, stageOrder, runStagesAux, reqMetaAudio, hmetaRun, haudioRun]
      rfl

end PipelineLemmas

section CompletionMarker

/-- The completion test the coordinator actually performs before each stage
(miner.py lines 287, 302, 314, 324): a bare existence check on the artifact
file, with no look at its contents. -/
def stage_done (st : Stage) (fs : Fs) : Bool := (artifactOf st fs).isSome

/-- The downloader completion test for the binary video artifact
(miner.py line 92): the file must exist and exceed 1024 bytes. -/
def video_file_ready (size : Option Nat) : Bool :=
  match size with
  | some n => decide (1024 < n)
  | none => false

/-- Written to the claim's words, for comparison with stage_done: the claimed
non-triviality test.  Any artifact passing the claim's test has nonempty
content — an empty file has zero size, and the empty string is not a
successful structural JSON parse — so nonemptiness is a necessary condition
of the claimed test, which suffices to refute the claimed equivalence. -/
def specNonTrivial (st : Stage) (c : String) : Bool :=
  match st with
  | _ => decide (c ≠ "")

/-- An artifact directory holding an empty metadata.json and nothing else. -/
def fsEmptyMeta : Fs :=
  { metadata := some "", transcript := none, narrative := none, emotions := none }

/-- C3 counterexample: a present-but-empty metadata.json IS accepted by the
coordinator as a completion marker — the Cached event is emitted and no
worker runs — although the empty content fails every non-triviality test the
claim describes (zero size, unparsable as JSON). -/
theorem c3_counterexample :
    artifactOf Stage.metadata fsEmptyMeta = some "" ∧
    stage_done Stage.metadata fsEmptyMeta = true ∧
    specNonTrivial Stage.metadata "" = false ∧
    (runStage Stage.metadata { skip := false, comp := Except.ok "ignored" } false
        fsEmptyMeta).evs = [cachedEv Stage.metadata] := by
  refine ⟨rfl, rfl, rfl, ?_⟩
  rw [runStage_cached _ _ _ _ (by rfl)]

/-- C3 amended: the coordinator treats a stage as already done if and only if
its artifact file exists, regardless of content — a present-but-empty or
present-but-unparsable artifact file is accepted as a completion marker; the
only content-sensitive check is the downloader video test, which requires
size strictly greater than 1024 bytes. -/
theorem c3_amended_existence_only (st : Stage) (inp : StageInput) (tok : Bool) (fs : Fs) :
    (stage_done st fs = true →
      runStage st inp tok fs = { tok := tok, evs := [cachedEv st], fs := fs }) ∧
    (stage_done st fs = false →
      (runStage st inp tok fs).evs.head? = some (initEv st)) ∧
    (∀ n : Nat, video_file_ready (some n) = decide (1024 < n)) ∧
    video_file_ready none = false := by
  refine ⟨fun h => runStage_cached st inp tok fs h, ?_, fun n => rfl, rfl⟩
  intro h
  have habs : artifactOf st fs = none := by
    rcases hart : artifactOf st fs with _ | c
    · rfl
    · rw [stage_done, hart] at h
      simp at h
  rcases hcomp : inp.comp with e | r
  · by_cases hskip : inp.skip = true
    · rw [runStage_skip st inp tok fs habs hskip]
      rfl
    · rw [runStage_err st inp tok fs e habs (by simpa using hskip) hcomp]
      rfl
  · by_cases hskip : inp.skip = true
    · rw [runStage_skip st inp tok fs habs hskip]
      rfl
    · by_cases hr : r = ""
      · rw [runStage_ok_empty st inp tok fs r habs (by simpa using hskip) hcomp hr]
        rfl
      · rw [runStage_ok st inp tok fs r habs (by simpa using hskip) hcomp hr]
        rfl

end CompletionMarker

section SyncEngine

/-- Reading an optional artifact as text (miner.py lines 160-161): an absent
file reads as the empty string. -/
def readTextOr (o : Option String) : String := o.getD ""

/-- The fixed-format concatenation embedded at miner.py line 173:
an f-string over title, summary, narrative and transcript. -/
def combined_text (title summary narrative transcript : String) : String :=
  "Title: " ++ title ++ "\nSummary: " ++ summary ++ "\nVisuals: " ++ narrative ++
    "\nLyrics: " ++ transcript

/-- The three vectors of miner.py lines 174-176, for an arbitrary embedding
collaborator: narrative-only and transcript-only vectors are computed only
when the text is truthy (nonempty); the combined vector is always computed.
Result order: (visual_vec, transcript_vec, combined_vec). -/
def syncVectors (embed : String → List Int) (title summary narrative transcript : String) :
    Option (List Int) × Option (List Int) × List Int :=
  ((if narrative ≠ "" then some (embed narrative) else none),
   (if transcript ≠ "" then some (embed transcript) else none),
   embed (combined_text title summary narrative transcript))

/-- The values a sync run binds before its three writes (miner.py lines
159-176): merged scalar fields plus artifact texts and vectors. -/
structure SyncVals where
  artistName : String
  title : String
  ytVideoId : String
  durationSeconds : Int
  singers : List String
  summary : String
  narrative : String
  transcript : String
  emotions : List String
  visualVec : Option (List Int)
  transcriptVec : Option (List Int)
  combinedVec : List Int
deriving DecidableEq, Repr

/-- A row of the Artist table. -/
structure ArtistRow where
  id : Nat
  name : String
deriving DecidableEq, Repr

/-- A row of the Song table.  The payload columns album, movie, language,
country, cast, musicDirector, lyricist and officialLyrics behave exactly
like the modelled ones — written on insert, never touched by the ON CONFLICT
update, which sets only title — and are elided from the row model. -/
structure SongRow where
  id : Nat
  title : String
  ytVideoId : String
  durationSeconds : Int
  singers : List String
  summary : String
  artistId : Nat
deriving DecidableEq, Repr

/-- A row of the SongContext table; updatedAt models NOW(). -/
structure ContextRow where
  songId : Nat
  visualDescription : String
  transcript : String
  emotionalTags : List String
  visualVector : Option (List Int)
  transcriptVector : Option (List Int)
  combinedVector : List Int
  updatedAt : Nat
deriving DecidableEq, Repr

/-- The committed state of the store; nextId models the id sequences. -/
structure Db where
  artists : List ArtistRow
  songs : List SongRow
  contexts : List ContextRow
  nextId : Nat
deriving DecidableEq, Repr

/-- The empty store. -/
def dbEmpty : Db := { artists := [], songs := [], contexts := [], nextId := 0 }

def findArtistId (name : String) : List ArtistRow → Option Nat
  | [] => none
  | r :: rs => if r.name = name then some r.id else findArtistId name rs

/-- The Artist write (miner.py line 181): INSERT ON CONFLICT name DO UPDATE
SET name = EXCLUDED.name RETURNING id — a lookup-or-create that leaves an
existing row unchanged. -/
def upsertArtist (name : String) (db : Db) : Nat × Db :=
  match findArtistId name db.artists with
  | some i => (i, db)
  | none =>
    let row : ArtistRow := { id := db.nextId, name := name }
    (db.nextId, { db with artists := db.artists ++ [row], nextId := db.nextId + 1 })

def findSongId (yt : String) : List SongRow → Option Nat
  | [] => none
  | r :: rs => if r.ytVideoId = yt then some r.id else findSongId yt rs

/-- The Song write (miner.py lines 184-195): INSERT ON CONFLICT ytVideoId DO
UPDATE SET title = EXCLUDED.title RETURNING id — on conflict only the title
column is updated. -/
def upsertSong (v : SyncVals) (artistId : Nat) (db : Db) : Nat × Db :=
  match findSongId v.ytVideoId db.songs with
  | some i =>
    (i, { db with songs := db.songs.map (fun r =>
      if r.ytVideoId = v.ytVideoId then { r with title := v.title } else r) })
  | none =>
    let row : SongRow :=
      { id := db.nextId, title := v.title, ytVideoId := v.ytVideoId,
        durationSeconds := v.durationSeconds, singers := v.singers,
        summary := v.summary, artistId := artistId }
    (db.nextId, { db with songs := db.songs ++ [row], nextId := db.nextId + 1 })

/-- The SongContext write (miner.py lines 198-207): INSERT ON CONFLICT songId
DO UPDATE SET updatedAt = NOW() — on conflict only the timestamp is updated;
narrative, transcript, emotion tags and vectors keep their previous values. -/
def upsertContext (v : SyncVals) (songId : Nat) (now : Nat) (db : Db) : Db :=
  if db.contexts.any (fun r => r.songId == songId) then
    { db with contexts := db.contexts.map (fun r =>
        if r.songId = songId then { r with updatedAt := now } else r) }
  else
    let row : ContextRow :=
      { songId := songId, visualDescription := v.narrative,
        transcript := v.transcript, emotionalTags := v.emotions,
        visualVector := v.visualVec, transcriptVector := v.transcriptVec,
        combinedVector := v.combinedVec, updatedAt := now }
    { db with contexts := db.contexts ++ [row] }

/-- Which of the three cursor executions raises (a constraint violation or
connection drop injected by the store). -/
inductive WriteStep
  | artist
  | song
  | context
deriving DecidableEq, Repr

/-- The transactional body of push_to_db (miner.py lines 178-211): the three
writes execute on one connection whose work is committed only by the
conn.commit() after all three succeed.  A raise at any step jumps to the
except handler with no commit, so the committed state visible afterwards is
the input state — psycopg2 discards an uncommitted transaction.  Returns
(success, committed state). -/
def pushWrites (v : SyncVals) (now : Nat) (failAt : WriteStep → Bool) (db : Db) :
    Bool × Db :=
  if failAt WriteStep.artist then (false, db)
  else
    let a := upsertArtist v.artistName db
    if failAt WriteStep.song then (false, db)
    else
      let so := upsertSong v a.1 a.2
      if failAt WriteStep.context then (false, db)
      else (true, upsertContext v so.1 now so.2)

/-- push_to_db (miner.py lines 143-215) at the event level.  A missing DB URL
returns False before any output (line 145).  With a URL present the
Connecting event is printed, then the try block runs: prep collapses the
imports, model load, artifact reads and vector computation; any exception —
from prep, from connecting, or from a write — reaches the except handler,
which prints one DB Sync Error event and returns False.  Success prints the
Complete event and returns True.  (The Loading and Generating progress
prints inside the try block are elided.)  Result: (events, success,
committed store). -/
def push_to_db (dbUrl : Option String) (prep : Except String SyncVals)
    (connFail : Option String) (failAt : WriteStep → Bool) (wErr : String)
    (now : Nat) (db : Db) : List String × Bool × Db :=
  match dbUrl with
  | none => ([], false, db)
  | some _ =>
    match prep with
    | Except.error e =>
      (["PRG:DB Sync:Connecting...:10", "❌ DB Sync Error: " ++ e], false, db)
    | Except.ok v =>
      match connFail with
      | some e =>
        (["PRG:DB Sync:Connecting...:10", "❌ DB Sync Error: " ++ e], false, db)
      | none =>
        match pushWrites v now failAt db with
        | (true, db2) =>
          (["PRG:DB Sync:Connecting...:10", "PRG:DB Sync:Complete:100"], true, db2)
        | (false, db2) =>
          (["PRG:DB Sync:Connecting...:10", "❌ DB Sync Error: " ++ wErr], false, db2)

/-- The coordinator tail after a sync (miner.py lines 336-340 and 270-273):
the run directory is removed only when push_to_db succeeded and cleanup was
requested; on sync failure the local artifacts are untouched. -/
def syncCleanup (ok : Bool) (cleanup : Bool) (fs : Fs) : Fs :=
  if ok && cleanup then
    { metadata := none, transcript := none, narrative := none, emotions := none }
  else fs

/-- The fatal-error handler of main (miner.py lines 342-344): one Fatal
Error event, exit status 1. -/
def fatalHandler (e : String) : List String × Nat :=
  (["❌ Fatal Error: " ++ e], 1)

section SyncTheorems

/-- C7: during sync the narrative-only embedding is computed iff the
narrative text is nonempty and the transcript-only embedding iff the
transcript text is nonempty — an absent artifact reads as empty text and
yields a null vector — while the combined embedding is always computed, over
exactly the fixed-format concatenation of title, summary, narrative and
transcript. -/
theorem c7_embedding_conditions (embed : String → List Int)
    (title summary : String) (narrativeFile transcriptFile : Option String) :
    ((syncVectors embed title summary (readTextOr narrativeFile)
        (readTextOr transcriptFile)).1 = none ↔ readTextOr narrativeFile = "") ∧
    (readTextOr narrativeFile ≠ "" →
      (syncVectors embed title summary (readTextOr narrativeFile)
        (readTextOr transcriptFile)).1 = some (embed (readTextOr narrativeFile))) ∧
    ((syncVectors embed title summary (readTextOr narrativeFile)
        (readTextOr transcriptFile)).2.1 = none ↔ readTextOr transcriptFile = "") ∧
    (readTextOr transcriptFile ≠ "" →
      (syncVectors embed title summary (readTextOr narrativeFile)
        (readTextOr transcriptFile)).2.1 = some (embed (readTextOr transcriptFile))) ∧
    (narrativeFile = none →
      (syncVectors embed title summary (readTextOr narrativeFile)
        (readTextOr transcriptFile)).1 = none) ∧
    (transcriptFile = none →
      (syncVectors embed title summary (readTextOr narrativeFile)
        (readTextOr transcriptFile)).2.1 = none) ∧
    (syncVectors embed title summary (readTextOr narrativeFile)
        (readTextOr transcriptFile)).2.2 =
      embed (combined_text title summary (readTextOr narrativeFile)
        (readTextOr transcriptFile)) := by
  refine ⟨?_, ?_, ?_, ?_, ?_, ?_, rfl⟩
  · by_cases h : readTextOr narrativeFile = "" <;> simp [syncVectors, h]
  · intro h
    simp [syncVectors, h]
  · by_cases h : readTextOr transcriptFile = "" <;> simp [syncVectors, h]
  · intro h
    simp [syncVectors, h]
  · intro h
    simp [syncVectors, h, readTextOr]
  · intro h
    simp [syncVectors, h, readTextOr]

/-- C6: the three sync writes form one transaction committed only after all
three succeed.  If the SongContext write fails after the Song write
succeeded — or if any write fails — the committed store is exactly the
pre-sync store (neither or both rows updated); push_to_db then returns
failure instead of raising, and the local artifact directory is untouched. -/
theorem c6_sync_transactional (v : SyncVals) (now : Nat) (failAt : WriteStep → Bool)
    (db : Db) (cleanup : Bool) (fs : Fs) :
    (failAt WriteStep.artist = false → failAt WriteStep.song = false →
      failAt WriteStep.context = true → pushWrites v now failAt db = (false, db)) ∧
    ((∀ st, failAt st = false) → (pushWrites v now failAt db).1 = true) ∧
    ((pushWrites v now failAt db).1 = false → (pushWrites v now failAt db).2 = db) ∧
    (∀ u wErr, (push_to_db (some u) (Except.ok v) none failAt wErr now db).2.1 = false →
      (push_to_db (some u) (Except.ok v) none failAt wErr now db).2.2 = db) ∧
    syncCleanup false cleanup fs = fs := by
  have hroll : (pushWrites v now failAt db).1 = false →
      (pushWrites v now failAt db).2 = db := by
    intro h
    by_cases h₁ : failAt WriteStep.artist = true
    · simp [pushWrites, h₁]
    · by_cases h₂ : failAt WriteStep.song = true
      · simp [pushWrites, h₁, h₂]
      · by_cases h₃ : failAt WriteStep.context = true
        · simp [pushWrites, h₁, h₂, h₃]
        · simp [pushWrites, h₁, h₂, h₃] at h
  refine ⟨?_, ?_, hroll, ?_, ?_⟩
  · intro h₁ h₂ h₃
    simp [pushWrites, h₁, h₂, h₃]
  · intro h
    simp [pushWrites, h]
  · intro u wErr h
    rcases hw : pushWrites v now failAt db with ⟨ok, db2⟩
    cases ok
    · have : db2 = db := by
        have := hroll (by rw [hw])
        rw [hw] at this
        exact this
      simp [push_to_db, hw, this]
    · simp [push_to_db, hw] at h
  · rfl

/-- C8 counterexample: with no database URL configured, push_to_db fails
(returns False, the run then exits with status 1) while emitting no progress
or error event at all — a failure path with no observable decision point on
the output stream, contradicting the claim. -/
theorem c8_counterexample :
    push_to_db none (Except.ok
      { artistName := "a", title := "t", ytVideoId := "y", durationSeconds := 0,
        singers := ["a"], summary := "s", narrative := "n", transcript := "l",
        emotions := [], visualVec := none, transcriptVec := none,
        combinedVec := [0] }) none (fun _ => false) "w" 0 dbEmpty =
      ([], false, dbEmpty) := rfl

/-- C8 amended: with a database URL configured, every failing sync path
(prep exception, unreachable store, failed write) emits the DB Sync Error
event and every successful sync the Complete event, so the controller sees a
decision point; worker exceptions likewise emit an Engine Error event and a
fatal top-level error the Fatal Error event with exit status 1.  The one
exception is the missing-configuration guard: with no URL, push_to_db
returns failure silently, emitting no event. -/
theorem c8_amended_terminal_events (u : String) (prep : Except String SyncVals)
    (connFail : Option String) (failAt : WriteStep → Bool) (wErr : String)
    (now : Nat) (db : Db) :
    ((push_to_db (some u) prep connFail failAt wErr now db).2.1 = false →
      ∃ e, (push_to_db (some u) prep connFail failAt wErr now db).1 =
        ["PRG:DB Sync:Connecting...:10", "❌ DB Sync Error: " ++ e]) ∧
    ((push_to_db (some u) prep connFail failAt wErr now db).2.1 = true →
      (push_to_db (some u) prep connFail failAt wErr now db).1 =
        ["PRG:DB Sync:Connecting...:10", "PRG:DB Sync:Complete:100"]) ∧
    (∀ e, worker_wrapper (Except.error e) = (["❌ Engine Error: " ++ e], none)) ∧
    (∀ e, fatalHandler e = (["❌ Fatal Error: " ++ e], 1)) ∧
    (∀ prep₂ cf₂ fa₂ we₂ now₂ db₂,
      push_to_db none prep₂ cf₂ fa₂ we₂ now₂ (db₂ : Db) = ([], false, db₂)) := by
  refine ⟨?_, ?_, fun e => rfl, fun e => rfl, fun p c f w n d => rfl⟩
  · intro h
    rcases prep with e | v
    · exact ⟨e, rfl⟩
    · rcases connFail with _ | e
      · rcases hw : pushWrites v now failAt db with ⟨ok, db2⟩
        cases ok
        · exact ⟨wErr, by simp [push_to_db, hw]⟩
        · simp [push_to_db, hw] at h
      · exact ⟨e, rfl⟩
  · intro h
    rcases prep with e | v
    · simp [push_to_db] at h
    · rcases connFail with _ | e
      · rcases hw : pushWrites v now failAt db with ⟨ok, db2⟩
        cases ok
        · simp [push_to_db, hw] at h
        · simp [push_to_db, hw]
      · simp [push_to_db] at h

/-- First-sync values used in the C5 counterexample. -/
def c5vals1 : SyncVals :=
  { artistName := "Artist", title := "Title1", ytVideoId := "vid01",
    durationSeconds := 100, singers := ["Artist"], summary := "Sum1",
    narrative := "A", transcript := "L1", emotions := ["joy"],
    visualVec := some [1], transcriptVec := some [2], combinedVec := [3] }

/-- Second-sync values (same external video id, different artifacts). -/
def c5vals2 : SyncVals :=
  { artistName := "Artist", title := "Title2", ytVideoId := "vid01",
    durationSeconds := 100, singers := ["Artist"], summary := "Sum2",
    narrative := "B", transcript := "L2", emotions := ["sad"],
    visualVec := some [4], transcriptVec := some [5], combinedVec := [6] }

/-- C5 counterexample: syncing twice with different artifact contents leaves
the store holding the FIRST run narrative, transcript, emotion tags and
vectors — the SongContext ON CONFLICT clause updates only updatedAt — while
the claim says the second run values are held. -/
theorem c5_counterexample :
    ((pushWrites c5vals2 2 (fun _ => false)
        (pushWrites c5vals1 1 (fun _ => false) dbEmpty).2).2.contexts.map
      (fun r => (r.visualDescription, r.transcript, r.emotionalTags,
        r.visualVector, r.transcriptVector, r.combinedVector, r.updatedAt))) =
      [("A", "L1", ["joy"], some [1], some [2], [3], 2)] ∧
    c5vals2.narrative = "B" ∧ c5vals2.transcript = "L2" := by
  refine ⟨rfl, rfl, rfl⟩

/-- C5 amended: persistence is keyed as claimed — Artist looked up or created
by unique name, Song upserted on ytVideoId with a foreign key to the artist,
SongContext upserted on song id — but the conflict updates are partial: on a
second sync with the same video id the Song row changes only its title and
the SongContext row changes only its timestamp, keeping the first run
narrative, transcript, emotion tags and vectors. -/
theorem c5_amended_partial_upsert (v₁ v₂ : SyncVals) (n₁ n₂ : Nat)
    (h : v₂.ytVideoId = v₁.ytVideoId) :
    ((pushWrites v₂ n₂ (fun _ => false)
        (pushWrites v₁ n₁ (fun _ => false) dbEmpty).2).2).contexts =
      [{ songId := 1, visualDescription := v₁.narrative, transcript := v₁.transcript,
         emotionalTags := v₁.emotions, visualVector := v₁.visualVec,
         transcriptVector := v₁.transcriptVec, combinedVector := v₁.combinedVec,
         updatedAt := n₂ }] ∧
    ((pushWrites v₂ n₂ (fun _ => false)
        (pushWrites v₁ n₁ (fun _ => false) dbEmpty).2).2).songs =
      [{ id := 1, title := v₂.title, ytVideoId := v₁.ytVideoId,
         durationSeconds := v₁.durationSeconds, singers := v₁.singers,
         summary := v₁.summary, artistId := 0 }] ∧
    (v₂.artistName = v₁.artistName →
      ((pushWrites v₂ n₂ (fun _ => false)
          (pushWrites v₁ n₁ (fun _ => false) dbEmpty).2).2).artists =
        [{ id := 0, name := v₁.artistName }]) := by
  have hd1 : (pushWrites v₁ n₁ (fun _ => false) dbEmpty).2 =
      { artists := [⟨0, v₁.artistName⟩],
        songs := [⟨1, v₁.title, v₁.ytVideoId, v₁.durationSeconds, v₁.singers,
          v₁.summary, 0⟩],
        contexts := [⟨1, v₁.narrative, v₁.transcript, v₁.emotions, v₁.visualVec,
          v₁.transcriptVec, v₁.combinedVec, n₁⟩],
        nextId := 2 } := rfl
  rw [hd1]
  by_cases hname : v₁.artistName = v₂.artistName
  · refine ⟨?_, ?_, fun _ => ?_⟩ <;>
      simp [pushWrites, upsertArtist, upsertSong, upsertContext, findArtistId,
        findSongId, hname, h]
  · have hname' : ¬ v₂.artistName = v₁.artistName := fun hc => hname hc.symm
    refine ⟨?_, ?_, fun hc => absurd hc hname'⟩ <;>
      simp [pushWrites, upsertArtist, upsertSong, upsertContext, findArtistId,
        findSongId, hname, h]

end SyncTheorems

end SyncEngine

section AudioEngine

/-- The Latin-script languages that skip romanization
(audio_engine.py line 151). -/
def latin_langs : List String := ["en", "es", "fr", "de", "it", "pt", "nl"]

/-- Phase 2 of process_audio (audio_engine.py lines 147-198): final_text
starts as the phase-1 transcript; romanization runs only for a non-Latin
locked language and a nonempty transcript; on success the accumulated LLM
stream passes through clean_llm_response (the cleanLLM collaborator here),
while an exception during the stream is caught and the raw transcript kept. -/
def romanize_phase (cleanLLM : String → String) (locked_language transcript_text : String)
    (llm : Except String String) : String :=
  if locked_language ∉ latin_langs ∧ transcript_text ≠ "" then
    match llm with
    | Except.ok full_content => cleanLLM full_content
    | Except.error _ => transcript_text
  else transcript_text

/-- process_audio (audio_engine.py lines 91-198).  Phase 1 — Whisper load,
language detection, transcription and hallucination cleanup, all external
collaborator work — is modelled by its outcome: on success the locked
language together with the cleaned transcript text, on an exception the
empty string is returned at once (line 138).  Phase 2 is romanize_phase. -/
def process_audio (phase1 : Except String (String × String))
    (llm : Except String String) (cleanLLM : String → String) : String :=
  match phase1 with
  | Except.error _ => ""
  | Except.ok lt => romanize_phase cleanLLM lt.1 lt.2 llm

/-- C9: if transcription succeeds with cleaned transcript t but the
romanization LLM call raises, process_audio still returns t, and the
coordinator then persists t as the transcript artifact — a romanization
failure never loses the transcript. -/
theorem c9_romanization_failure_keeps_transcript (lang t e : String)
    (cleanLLM : String → String) (fs : Fs) (tok : Bool)
    (ht : t ≠ "") (habs : fs.transcript = none) :
    process_audio (Except.ok (lang, t)) (Except.error e) cleanLLM = t ∧
    (runStage Stage.audio
        { skip := false,
          comp := Except.ok (process_audio (Except.ok (lang, t)) (Except.error e) cleanLLM) }
        tok fs).fs.transcript = some t := by
  have hpa : process_audio (Except.ok (lang, t)) (Except.error e) cleanLLM = t := by
    by_cases hl : lang ∉ latin_langs ∧ t ≠ "" <;>
      simp [process_audio, romanize_phase, hl]
  refine ⟨hpa, ?_⟩
  have habs' : artifactOf Stage.audio fs = none := habs
  rw [runStage_ok Stage.audio _ tok fs
    (process_audio (Except.ok (lang, t)) (Except.error e) cleanLLM) habs' rfl rfl
    (by rw [hpa]; exact ht)]
  rw [hpa]
  rfl

end AudioEngine

section RunKey

/-- Python str.split("&") on a character list (miner.py line 245, second
split): splits at every occurrence of the one-character separator, keeping
empty fragments, never returning an empty list. -/
def splitAmp : List Char → List (List Char)
  | [] => [[]]
  | y :: ys =>
    if y = '&' then [] :: splitAmp ys
    else
      match splitAmp ys with
      | [] => [[y]]
      | p :: ps => (y :: p) :: ps

/-- Python str.split("v=") on a character list (miner.py line 245, first
split): scans left to right, consuming each occurrence of the two-character
separator. -/
def splitVEq : List Char → List (List Char)
  | [] => [[]]
  | [y] => [[y]]
  | y :: z :: ys =>
    if y = 'v' ∧ z = '=' then [] :: splitVEq ys
    else
      match splitVEq (z :: ys) with
      | [] => [[y]]
      | p :: ps => (y :: p) :: ps

/-- The run key derivation of miner.py line 245:
url.split("v=")[-1].split("&")[0]. -/
def vid_id (url : List Char) : List Char :=
  (splitAmp ((splitVEq url).getLastD [])).headD []

/-- The run key derivation on strings. -/
def run_key (url : String) : String := String.mk (vid_id url.data)

/-- Whether the two-character sequence v= occurs in a list; written to the
claim's words for comparison with the code-side split. -/
def hasVEq : List Char → Bool
  | y :: z :: ys => if y = 'v' ∧ z = '=' then true else hasVEq (z :: ys)
  | _ => false

/-- The suffix after the last occurrence of v= (the whole list when there is
no occurrence); written to the claim's words. -/
def afterLastVEq : List Char → List Char
  | [] => []
  | [y] => [y]
  | y :: z :: ys =>
    if hasVEq (z :: ys) then afterLastVEq (z :: ys)
    else if y = 'v' ∧ z = '=' then ys
    else y :: z :: ys

/-- The prefix before the first ampersand; written to the claim's words. -/
def takeBeforeAmp : List Char → List Char
  | [] => []
  | y :: ys => if y = '&' then [] else y :: takeBeforeAmp ys

/-- Two-step list induction matching the recursion of splitVEq. -/
theorem twoStepInd (P : List Char → Prop) (h₀ : P []) (h₁ : ∀ y, P [y])
    (h₂ : ∀ y z ys, P (z :: ys) → P ys → P (y :: z :: ys)) : ∀ l, P l
  | [] => h₀
  | [y] => h₁ y
  | y :: z :: ys =>
    h₂ y z ys (twoStepInd P h₀ h₁ h₂ (z :: ys)) (twoStepInd P h₀ h₁ h₂ ys)

theorem splitAmp_ne_nil (l : List Char) : splitAmp l ≠ [] := by
  induction l with
  | nil => simp [splitAmp]
  | cons y ys ih =>
    by_cases h : y = '&'
    · simp [splitAmp, h]
    · rcases hs : splitAmp ys with _ | ⟨p, ps⟩
      · simp [splitAmp, h, hs]
      · simp [splitAmp, h, hs]

theorem headD_splitAmp (l : List Char) : (splitAmp l).headD [] = takeBeforeAmp l := by
  induction l with
  | nil => rfl
  | cons y ys ih =>
    by_cases h : y = '&'
    · simp [splitAmp, h, takeBeforeAmp]
    · rcases hs : splitAmp ys with _ | ⟨p, ps⟩
      · exact absurd hs (splitAmp_ne_nil ys)
      · rw [hs] at ih
        simp only [List.headD_cons] at ih
        simp [splitAmp, h, hs, takeBeforeAmp, ih]

theorem splitVEq_ne_nil (l : List Char) : splitVEq l ≠ [] := by
  induction l using twoStepInd with
  | h₀ => simp [splitVEq]
  | h₁ y => simp [splitVEq]
  | h₂ y z ys ih₁ ih₂ =>
    by_cases h : y = 'v' ∧ z = '='
    · simp [splitVEq, h]
    · rcases hs : splitVEq (z :: ys) with _ | ⟨p, ps⟩
      · exact absurd hs ih₁
      · simp [splitVEq, h, hs]

theorem getLastD_irrel (l : List (List Char)) (d₁ d₂ : List Char) (h : l ≠ []) :
    l.getLastD d₁ = l.getLastD d₂ := by
  cases l with
  | nil => exact absurd rfl h
  | cons a l => rw [List.getLastD_cons, List.getLastD_cons]

theorem hasVEq_cons_of_ne (z : Char) (ys : List Char) (hz : z ≠ 'v') :
    hasVEq (z :: ys) = hasVEq ys := by
  cases ys with
  | nil => simp [hasVEq]
  | cons w ws => simp [hasVEq, hz]

theorem afterLastVEq_of_not_hasVEq (l : List Char) (h : hasVEq l = false) :
    afterLastVEq l = l := by
  induction l using twoStepInd with
  | h₀ => rfl
  | h₁ y => rfl
  | h₂ y z ys ih₁ ih₂ =>
    have hcond : ¬ (y = 'v' ∧ z = '=') := by
      intro hc
      simp [hasVEq, hc] at h
    have hz : hasVEq (z :: ys) = false := by
      simpa [hasVEq, hcond] using h
    simp [afterLastVEq, hz, hcond]

theorem splitVEq_of_not_hasVEq (l : List Char) (h : hasVEq l = false) :
    splitVEq l = [l] := by
  induction l using twoStepInd with
  | h₀ => rfl
  | h₁ y => rfl
  | h₂ y z ys ih₁ ih₂ =>
    have hcond : ¬ (y = 'v' ∧ z = '=') := by
      intro hc
      simp [hasVEq, hc] at h
    have hz : hasVEq (z :: ys) = false := by
      simpa [hasVEq, hcond] using h
    simp [splitVEq, hcond, ih₁ hz]

theorem two_le_splitVEq_of_hasVEq (l : List Char) (h : hasVEq l = true) :
    2 ≤ (splitVEq l).length := by
  induction l using twoStepInd with
  | h₀ => simp [hasVEq] at h
  | h₁ y => simp [hasVEq] at h
  | h₂ y z ys ih₁ ih₂ =>
    by_cases hcond : y = 'v' ∧ z = '='
    · rcases hs : splitVEq ys with _ | ⟨p, ps⟩
      · exact absurd hs (splitVEq_ne_nil ys)
      · simp [splitVEq, hcond, hs]
    · have hz : hasVEq (z :: ys) = true := by
        simpa [hasVEq, hcond] using h
      rcases hs : splitVEq (z :: ys) with _ | ⟨p, ps⟩
      · exact absurd hs (splitVEq_ne_nil _)
      · have h2 := ih₁ hz
        rw [hs] at h2
        simp at h2
        simp [splitVEq, hcond, hs]
        omega

theorem getLastD_splitVEq (l : List Char) :
    (splitVEq l).getLastD [] = afterLastVEq l := by
  induction l using twoStepInd with
  | h₀ => rfl
  | h₁ y => rfl
  | h₂ y z ys ih₁ ih₂ =>
    by_cases hcond : y = 'v' ∧ z = '='
    · obtain ⟨hy, hz'⟩ := hcond
      subst hy
      subst hz'
      have heq : hasVEq ('=' :: ys) = hasVEq ys := hasVEq_cons_of_ne '=' ys (by decide)
      have hsplit : splitVEq ('v' :: '=' :: ys) = [] :: splitVEq ys := by
        simp [splitVEq]
      rw [hsplit, List.getLastD_cons]
      rw [getLastD_irrel (splitVEq ys) [] [] (splitVEq_ne_nil ys), ih₂]
      by_cases hys : hasVEq ys = true
      · have h1 : afterLastVEq ('v' :: '=' :: ys) = afterLastVEq ('=' :: ys) := by
          simp [afterLastVEq, heq, hys]
        have h2 : afterLastVEq ('=' :: ys) = afterLastVEq ys := by
          cases ys with
          | nil => simp [hasVEq] at hys
          | cons w ws => simp [afterLastVEq, hys]
        rw [h1, h2]
      · have hys' : hasVEq ys = false := by simpa using hys
        rw [afterLastVEq_of_not_hasVEq ys hys']
        simp [afterLastVEq, heq, hys']
    · rcases hs : splitVEq (z :: ys) with _ | ⟨p, ps⟩
      · exact absurd hs (splitVEq_ne_nil _)
      · have hsplit : splitVEq (y :: z :: ys) = (y :: p) :: ps := by
          simp [splitVEq, hcond, hs]
        rw [hsplit]
        cases ps with
        | nil =>
          have hz : hasVEq (z :: ys) = false := by
            by_contra hcon
            have hc : hasVEq (z :: ys) = true := by simpa using hcon
            have hlen := two_le_splitVEq_of_hasVEq _ hc
            rw [hs] at hlen
            simp at hlen
          have hps : splitVEq (z :: ys) = [z :: ys] := splitVEq_of_not_hasVEq _ hz
          rw [hs] at hps
          have hp : p = z :: ys := by
            injection hps
          subst hp
          simp [afterLastVEq, hz, hcond]
        | cons q qs =>
          have hz : hasVEq (z :: ys) = true := by
            by_contra hcon
            have hc : hasVEq (z :: ys) = false := by simpa using hcon
            have hone := splitVEq_of_not_hasVEq _ hc
            rw [hs] at hone
            simp at hone
          have hL : ((y :: p) :: q :: qs).getLastD ([] : List Char) =
              (p :: q :: qs).getLastD [] := by
            calc ((y :: p) :: q :: qs).getLastD ([] : List Char)
                = (q :: qs).getLastD (y :: p) := List.getLastD_cons _ _ _
              _ = (q :: qs).getLastD p := getLastD_irrel _ _ _ (by simp)
              _ = (p :: q :: qs).getLastD [] := (List.getLastD_cons _ _ _).symm
          rw [hL, ← hs, ih₁]
          simp [afterLastVEq, hz]

/-- The code-side run key equals the spec-side description: the part of the
URL after the last occurrence of v= and before the first ampersand that
follows. -/
theorem vid_id_eq_spec (l : List Char) :
    vid_id l = takeBeforeAmp (afterLastVEq l) := by
  rw [vid_id, headD_splitAmp, getLastD_splitVEq]

/-- C10 counterexample: the URL a&b contains no v= at all, yet the derived
run key is a — the part before the first ampersand — not the entire URL
string as the claim states. -/
theorem c10_counterexample :
    hasVEq "a&b".data = false ∧
    vid_id "a&b".data = "a".data ∧
    vid_id "a&b".data ≠ "a&b".data := by
  refine ⟨rfl, rfl, ?_⟩
  decide

/-- C10 amended: the run key is the substring after the last occurrence of
v= and before the first subsequent ampersand; for a URL containing no v= at
all the key is the part of the URL before its first ampersand (the entire
URL exactly when it also contains no ampersand), still with no validation of
the result. -/
theorem c10_amended_run_key (url : List Char) :
    vid_id url = takeBeforeAmp (afterLastVEq url) ∧
    (hasVEq url = false → vid_id url = takeBeforeAmp url) ∧
    run_key (String.mk url) = String.mk (takeBeforeAmp (afterLastVEq url)) := by
  refine ⟨vid_id_eq_spec url, fun h => ?_, ?_⟩
  · rw [vid_id_eq_spec url, afterLastVEq_of_not_hasVEq url h]
  · exact congrArg String.mk (vid_id_eq_spec url)

end RunKey

section Witnesses

/-- An empty artifact directory. -/
def fsAllNone : Fs :=
  { metadata := none, transcript := none, narrative := none, emotions := none }

/-- All stages requested. -/
def reqAll : Stage → Bool := fun _ => true

/-- Inputs with the audio stage cancelled and every other stage normal. -/
def w1inps : Stage → StageInput := fun st =>
  match st with
  | Stage.audio => { skip := true, comp := Except.ok "t" }
  | _ => { skip := false, comp := Except.ok "r" }

theorem c1_witness :
    (runPipeline reqAll w1inps fsAllNone).evs.count "SKIP_ACK" = 1 ∧
    artifactOf Stage.audio (runPipeline reqAll w1inps fsAllNone).fs = none ∧
    (runPipeline reqAll w1inps fsAllNone).fs =
      (runPipeline (reqWithout reqAll Stage.audio) w1inps fsAllNone).fs ∧
    ∃ pre post,
      (runPipeline reqAll w1inps fsAllNone).evs =
        pre ++ [initEv Stage.audio, "SKIP_ACK"] ++ post ∧
      (runPipeline (reqWithout reqAll Stage.audio) w1inps fsAllNone).evs =
        pre ++ post :=
  c1_cancellation_stage_scoped reqAll w1inps fsAllNone Stage.audio rfl rfl rfl
    (by intro y hy; cases y <;> first | rfl | exact absurd rfl hy)

/-- Inputs with the video stage computation raising and the rest normal. -/
def w2inps : Stage → StageInput := fun st =>
  match st with
  | Stage.video => { skip := false, comp := Except.error "boom" }
  | _ => { skip := false, comp := Except.ok "r" }

theorem c2_witness :
    worker_wrapper (Except.error "boom") = (["❌ Engine Error: boom"], none) ∧
    artifactOf Stage.video (runPipeline reqAll w2inps fsAllNone).fs = none ∧
    (runPipeline reqAll w2inps fsAllNone).fs =
      (runPipeline (reqWithout reqAll Stage.video) w2inps fsAllNone).fs ∧
    ∃ pre post,
      (runPipeline reqAll w2inps fsAllNone).evs =
        pre ++ [initEv Stage.video, "❌ Engine Error: " ++ "boom"] ++ post ∧
      (runPipeline (reqWithout reqAll Stage.video) w2inps fsAllNone).evs =
        pre ++ post :=
  c2_worker_isolation reqAll w2inps fsAllNone Stage.video "boom" rfl rfl rfl rfl

theorem c3_witness :
    runStage Stage.metadata { skip := false, comp := Except.ok "m" } false fsEmptyMeta =
      { tok := false, evs := [cachedEv Stage.metadata], fs := fsEmptyMeta } ∧
    (runStage Stage.metadata { skip := false, comp := Except.ok "m" } false
        fsAllNone).evs.head? = some (initEv Stage.metadata) :=
  ⟨(c3_amended_existence_only Stage.metadata
      { skip := false, comp := Except.ok "m" } false fsEmptyMeta).1 rfl,
   (c3_amended_existence_only Stage.metadata
      { skip := false, comp := Except.ok "m" } false fsAllNone).2.1 rfl⟩

/-- An artifact directory with only the transcript present. -/
def fsOnlyTranscript : Fs :=
  { metadata := none, transcript := some "lyrics", narrative := none, emotions := none }

/-- An artifact directory with all four artifacts present. -/
def fsAllSome : Fs :=
  { metadata := some "m", transcript := some "t", narrative := some "n",
    emotions := some "e" }

/-- Inputs whose metadata computation succeeds with a nonempty result. -/
def w4inps : Stage → StageInput := fun _ => { skip := false, comp := Except.ok "meta" }

theorem c4_witness :
    runStage Stage.video { skip := false, comp := Except.ok "x" } false fsAllSome =
      { tok := false, evs := [cachedEv Stage.video], fs := fsAllSome } ∧
    (runPipeline reqAll w4inps fsAllSome).fs = fsAllSome ∧
    (runPipeline reqAll w4inps fsAllSome).evs =
      (stageOrder.filter (fun st => reqAll st)).map cachedEv ∧
    (runPipeline reqMetaAudio w4inps fsOnlyTranscript).evs =
      [initEv Stage.metadata, "PRG:Metadata:100:100", cachedEv Stage.audio] ∧
    (runPipeline reqMetaAudio w4inps fsOnlyTranscript).fs =
      { fsOnlyTranscript with metadata := some "meta" } := by
  refine ⟨c4_idempotence_resumability.1 Stage.video _ false fsAllSome rfl, ?_, ?_, ?_, ?_⟩
  · exact (c4_idempotence_resumability.2.1 reqAll w4inps fsAllSome
      (by intro st _; cases st <;> rfl)).1
  · exact (c4_idempotence_resumability.2.1 reqAll w4inps fsAllSome
      (by intro st _; cases st <;> rfl)).2
  · exact (c4_idempotence_resumability.2.2 w4inps fsOnlyTranscript "lyrics" "meta"
      rfl rfl rfl rfl (by decide)).1
  · exact (c4_idempotence_resumability.2.2 w4inps fsOnlyTranscript "lyrics" "meta"
      rfl rfl rfl rfl (by decide)).2

theorem c5_witness :
    ((pushWrites c5vals2 2 (fun _ => false)
        (pushWrites c5vals1 1 (fun _ => false) dbEmpty).2).2).contexts =
      [⟨1, "A", "L1", ["joy"], some [1], some [2], [3], 2⟩] ∧
    ((pushWrites c5vals2 2 (fun _ => false)
        (pushWrites c5vals1 1 (fun _ => false) dbEmpty).2).2).songs =
      [⟨1, "Title2", "vid01", 100, ["Artist"], "Sum1", 0⟩] ∧
    ((pushWrites c5vals2 2 (fun _ => false)
        (pushWrites c5vals1 1 (fun _ => false) dbEmpty).2).2).artists =
      [⟨0, "Artist"⟩] := by
  obtain ⟨h1, h2, h3⟩ := c5_amended_partial_upsert c5vals1 c5vals2 1 2 rfl
  exact ⟨h1, h2, h3 rfl⟩

/-- A failure injection hitting exactly the SongContext write. -/
def failCtxOnly : WriteStep → Bool := fun st =>
  match st with
  | WriteStep.context => true
  | _ => false

theorem c6_witness :
    pushWrites c5vals1 0 failCtxOnly dbEmpty = (false, dbEmpty) ∧
    (pushWrites c5vals1 0 (fun _ => false) dbEmpty).1 = true ∧
    syncCleanup false true fsAllNone = fsAllNone := by
  obtain ⟨h1, h2, _, _, h5⟩ :=
    c6_sync_transactional c5vals1 0 failCtxOnly dbEmpty true fsAllNone
  obtain ⟨_, h2', _, _, _⟩ :=
    c6_sync_transactional c5vals1 0 (fun _ => false) dbEmpty true fsAllNone
  exact ⟨h1 rfl rfl rfl, h2' (fun st => rfl), h5⟩

/-- A concrete embedding collaborator for the witnesses. -/
def wEmbed : String → List Int := fun s => [(s.length : Int)]

theorem c7_witness :
    (syncVectors wEmbed "t" "s" (readTextOr (some "n")) (readTextOr none)).1 =
      some (wEmbed "n") ∧
    (syncVectors wEmbed "t" "s" (readTextOr (some "n")) (readTextOr none)).2.1 = none ∧
    (syncVectors wEmbed "t" "s" (readTextOr (some "n")) (readTextOr none)).2.2 =
      wEmbed (combined_text "t" "s" (readTextOr (some "n")) (readTextOr none)) := by
  obtain ⟨_, h2, _, _, _, h6, h7⟩ :=
    c7_embedding_conditions wEmbed "t" "s" (some "n") none
  exact ⟨h2 (by decide), h6 rfl, h7⟩

theorem c8_witness :
    (∃ e, (push_to_db (some "u") (Except.error "x") none (fun _ => false) "w" 0
        dbEmpty).1 = ["PRG:DB Sync:Connecting...:10", "❌ DB Sync Error: " ++ e]) ∧
    (push_to_db (some "u") (Except.ok c5vals1) none (fun _ => false) "w" 7 dbEmpty).1 =
      ["PRG:DB Sync:Connecting...:10", "PRG:DB Sync:Complete:100"] ∧
    push_to_db none (Except.ok c5vals1) none (fun _ => false) "w" 7 dbEmpty =
      ([], false, dbEmpty) := by
  obtain ⟨h1, _, _, _, _⟩ :=
    c8_amended_terminal_events "u" (Except.error "x") none (fun _ => false) "w" 0 dbEmpty
  obtain ⟨_, h2, _, _, h5⟩ :=
    c8_amended_terminal_events "u" (Except.ok c5vals1) none (fun _ => false) "w" 7 dbEmpty
  exact ⟨h1 rfl, h2 rfl, h5 (Except.ok c5vals1) none (fun _ => false) "w" 7 dbEmpty⟩

theorem c9_witness :
    process_audio (Except.ok ("hi", "hello")) (Except.error "boom") id = "hello" ∧
    (runStage Stage.audio
        { skip := false,
          comp := Except.ok (process_audio (Except.ok ("hi", "hello"))
            (Except.error "boom") id) }
        false fsAllNone).fs.transcript = some "hello" :=
  c9_romanization_failure_keeps_transcript "hi" "hello" "boom" id fsAllNone false
    (by decide) rfl

theorem c10_witness :
    vid_id "x?v=ab&c".data = takeBeforeAmp (afterLastVEq "x?v=ab&c".data) ∧
    vid_id "a&b".data = takeBeforeAmp "a&b".data :=
  ⟨(c10_amended_run_key "x?v=ab&c".data).1,
   (c10_amended_run_key "a&b".data).2.1 rfl⟩

end Witnesses

end Miner
